import Mathlib

/-
Verification development for the VOC-dashboard record classification and
aggregation pipeline (src/app.py).

Modelling conventions for the shallow embedding:
- A spreadsheet cell value (Python object) is a Cell: missing (NaN/None),
  a string, or an integer.  Python str() on a cell is Cell.toPyStr.
- Python strings are Lean Strings; character-level work uses List Char
  (String.data).  Python str.lower() is modelled by Char.toLower, which
  agrees with Python on ASCII letters; Hangul has no case.
- Regex character classes \d and \s are modelled as ASCII decimal digits
  and ASCII whitespace, which is exact on the inputs the dashboard handles.
- pandas DataFrames are lists of typed records; groupby(...).size() is the
  list of distinct keys paired with occurrence counts; value_counts() is
  that list sorted by descending count (ties resolved stably, a legal
  determinization of the pandas sort).
- Dates (pandas Timestamps at day granularity) are encoded as a Nat day
  code; consecutive calendar days in a pd.date_range correspond to
  consecutive codes, so a date range is a Nat interval.
-/

/-- Cell models one raw spreadsheet value as seen by the Python code:
missing data (None / NaN), a string, or a number. -/
inductive Cell where
  | na : Cell
  | str (s : String) : Cell
  | int (n : Int) : Cell
deriving DecidableEq, Repr

/-- Python pd.isna on a cell value. -/
def Cell.isna : Cell → Bool
  | Cell.na => true
  | _ => false

/-- Python isinstance(x, str) on a cell value. -/
def Cell.isStr : Cell → Bool
  | Cell.str _ => true
  | _ => false

/-- Python str(x) on a cell value (str(float('nan')) is "nan"). -/
def Cell.toPyStr : Cell → String
  | Cell.na => "nan"
  | Cell.str s => s
  | Cell.int n => toString n

/-- Python regex class \s (ASCII part): space, tab, newline, carriage
return, vertical tab (11), form feed (12). -/
def pySpace (c : Char) : Bool :=
  c == ' ' || c == '\t' || c == '\n' || c == '\r' || c.val == 11 || c.val == 12

/-- Python str.strip(): drop leading and trailing whitespace. -/
def pyStrip (l : List Char) : List Char :=
  ((l.dropWhile pySpace).reverse.dropWhile pySpace).reverse

/-- Character class of re.sub(r'[^a-z0-9ㄱ-ㅎㅏ-ㅣ가-힣]', '', ...) in
classify_game / classify_platform (src/app.py lines 234, 244): lowercase
ASCII letters, ASCII digits, Hangul jamo U+3131-U+3163, Hangul syllables
U+AC00-U+D7A3. -/
def keepHangulAlnum (c : Char) : Bool :=
  (decide ('a' ≤ c) && decide (c ≤ 'z')) || (decide ('0' ≤ c) && decide (c ≤ '9'))
    || (decide ('ㄱ' ≤ c) && decide (c ≤ 'ㅣ')) || (decide ('가' ≤ c) && decide (c ≤ '힣'))

/-- Normalization shared by classify_game and classify_platform:
str(category).lower() followed by stripping every character outside the
allowed class (src/app.py lines 234, 244). -/
def normalizeCat (s : String) : List Char :=
  (s.data.map Char.toLower).filter keepHangulAlnum

/-- Python substring containment (the in operator on strings): the needle
occurs contiguously somewhere in the haystack. -/
def containsSub (needle : List Char) : List Char → Bool
  | [] => needle.isEmpty
  | c :: cs => needle.isPrefixOf (c :: cs) || containsSub needle cs

/-- Keyword sets of classify_game in their source order (src/app.py lines
235-239): index 0 is checked first, index 4 last. -/
def gameKeys : Nat → List (List Char)
  | 0 => ["쇼다운홀덤".data, "showdown".data]
  | 1 => ["뉴베가스".data, "newvegas".data, "카지노군".data]
  | 2 => ["뉴맞고".data, "newmatgo".data]
  | 3 => ["섯다".data, "sutda".data]
  | 4 => ["포커".data, "poker".data]
  | _ => []

/-- Game label returned for each keyword-set index of classify_game. -/
def gameName : Nat → String
  | 0 => "쇼다운홀덤"
  | 1 => "뉴베가스"
  | 2 => "뉴맞고"
  | 3 => "섯다"
  | 4 => "포커"
  | _ => "기타"

/-- Test of the i-th keyword set against a normalized category string:
true when any keyword occurs as a substring (Python in). -/
def gameMatch (i : Nat) (p : List Char) : Bool :=
  (gameKeys i).any (fun k => containsSub k p)

/-- classify_game (src/app.py lines 232-240): NaN maps to 기타, otherwise
the normalized category is tested against the keyword sets in source
order, first match wins, no match maps to 기타. -/
def classify_game (category : Cell) : String :=
  match category with
  | Cell.na => "기타"
  | c =>
    let processed := normalizeCat c.toPyStr
    if gameMatch 0 processed then "쇼다운홀덤"
    else if gameMatch 1 processed then "뉴베가스"
    else if gameMatch 2 processed then "뉴맞고"
    else if gameMatch 3 processed then "섯다"
    else if gameMatch 4 processed then "포커"
    else "기타"

/-- classify_platform (src/app.py lines 242-248): the for-kakao keywords
are checked before the mobile and desktop keywords. -/
def classify_platform (category : Cell) : String :=
  match category with
  | Cell.na => "기타"
  | c =>
    let processed := normalizeCat c.toPyStr
    if containsSub "forkakao".data processed || containsSub "fork".data processed then "for kakao"
    else if containsSub "mob".data processed || containsSub "모바일".data processed then "MOB"
    else if containsSub "pc".data processed then "PC"
    else "기타"

/-- Positive keyword list of classify_sentiment (src/app.py line 279). -/
def posKeywords : List String :=
  ["감사합니다", "좋아요", "도움이 되었습니다", "해결", "고맙습니다"]

/-- Negative keyword list of classify_sentiment (src/app.py line 280). -/
def negKeywords : List String :=
  ["짜증", "오류", "환불", "안돼요", "쓰레기", "조작", "불만", "문제", "패몰림", "오링", "강퇴", "버그", "렉"]

/-- classify_sentiment (src/app.py lines 277-284): non-strings map to 중립;
otherwise the lowercased text is scanned for negative keywords first,
then positive keywords, else 중립. -/
def classify_sentiment (text : Cell) : String :=
  match text with
  | Cell.str s =>
    let t := s.data.map Char.toLower
    if negKeywords.any (fun w => containsSub (w.data.map Char.toLower) t) then "부정"
    else if posKeywords.any (fun w => containsSub (w.data.map Char.toLower) t) then "긍정"
    else "중립"
  | _ => "중립"

/-- Label that begins the member-number pattern 회원번호\s*:\s*(\d+) of
extract_gsn_usn (src/app.py line 254). -/
def memberLabel : List Char := "회원번호".data

/-- Attempt to match the regex 회원번호\s*:\s*(\d+) at the head of the
text, returning the captured digit group. -/
def matchMemberAt (cs : List Char) : Option (List Char) :=
  if memberLabel.isPrefixOf cs then
    match (cs.drop memberLabel.length).dropWhile pySpace with
    | ':' :: r2 =>
      let ds := (r2.dropWhile pySpace).takeWhile Char.isDigit
      if ds.isEmpty then none else some ds
    | _ => none
  else none

/-- re.search for the member-number pattern: leftmost match wins, scanning
one character at a time. -/
def searchMember : List Char → Option (List Char)
  | [] => none
  | c :: cs =>
    match matchMemberAt (c :: cs) with
    | some ds => some ds
    | none => searchMember cs

/-- re.search(r'\d+', ...) (src/app.py line 258): the first maximal run of
digits. -/
def firstDigitRun : List Char → Option (List Char)
  | [] => none
  | c :: cs => if c.isDigit then some (c :: cs.takeWhile Char.isDigit) else firstDigitRun cs

/-- extract_gsn_usn (src/app.py lines 250-260).  Arguments are the row
fields the function reads: 플랫폼, 문의내용, 고객정보.  For MOB / for kakao
the body is searched for the member-number pattern; if that misses, the
code falls through to the PC test, which searches 고객정보 for digits;
otherwise the empty string is returned. -/
def extract_gsn_usn (platform inquiry custInfo : String) : String :=
  match (if platform = "MOB" ∨ platform = "for kakao" then searchMember inquiry.data else none) with
  | some ds => String.mk ds
  | none =>
    if platform = "PC" then
      match firstDigitRun custInfo.data with
      | some ds => String.mk ds
      | none => ""
    else ""

/-- Label of the device pattern 휴대폰기기정보\s*:\s*(\S+) of
extract_device_info (src/app.py line 264). -/
def deviceLabel : List Char := "휴대폰기기정보".data

/-- Attempt to match 휴대폰기기정보\s*:\s*(\S+) at the head of the text. -/
def matchDeviceAt (cs : List Char) : Option (List Char) :=
  if deviceLabel.isPrefixOf cs then
    match (cs.drop deviceLabel.length).dropWhile pySpace with
    | ':' :: r2 =>
      let ds := (r2.dropWhile pySpace).takeWhile (fun c => !pySpace c)
      if ds.isEmpty then none else some ds
    | _ => none
  else none

/-- re.search for the device pattern, leftmost match. -/
def searchDevice : List Char → Option (List Char)
  | [] => none
  | c :: cs =>
    match matchDeviceAt (c :: cs) with
    | some ds => some ds
    | none => searchDevice cs

/-- extract_device_info (src/app.py lines 262-268): the body is searched
for the device pattern; on a miss, platform PC yields the literal "PC",
anything else the empty string. -/
def extract_device_info (platform inquiry : String) : String :=
  match searchDevice inquiry.data with
  | some ds => String.mk ds
  | none => if platform = "PC" then "PC" else ""

/-- Marker string "회원번호 :" on which truncate_inquiry_content splits
(src/app.py line 273). -/
def memberMarker : List Char := "회원번호 :".data

/-- Python text.split(marker)[0]: the portion of the text preceding the
first occurrence of the marker, the whole text when the marker is absent. -/
def takeBefore (m : List Char) : List Char → List Char
  | [] => []
  | c :: cs => if m.isPrefixOf (c :: cs) then [] else c :: takeBefore m cs

/-- truncate_inquiry_content (src/app.py lines 270-275): non-strings map
to ""; otherwise the text before the first 회원번호 : marker is stripped,
cut at 300 characters, and suffixed with "..." exactly when the stripped
text is longer than 300 characters. -/
def truncate_inquiry_content (text : Cell) : String :=
  match text with
  | Cell.str s =>
    let cleaned := pyStrip (takeBefore memberMarker s.data)
    String.mk (cleaned.take 300 ++ (if 300 < cleaned.length then "...".data else []))
  | _ => ""

/-- Decimal digit character for a value below ten. -/
def digitChar (d : Nat) : Char :=
  if d = 0 then '0' else if d = 1 then '1' else if d = 2 then '2' else if d = 3 then '3'
  else if d = 4 then '4' else if d = 5 then '5' else if d = 6 then '6' else if d = 7 then '7'
  else if d = 8 then '8' else '9'

/-- Fuel-driven accumulator loop producing the decimal digits of n. -/
def natDigitsAux : Nat → Nat → List Char → List Char
  | 0, _, acc => acc
  | fuel + 1, n, acc => if n = 0 then acc else natDigitsAux fuel (n / 10) (digitChar (n % 10) :: acc)

/-- Decimal digit string of a natural number, modelling Python str(n). -/
def natDigits (n : Nat) : List Char := if n = 0 then ['0'] else natDigitsAux (n + 1) n []

/-- Numeric value of an ASCII digit character. -/
def digitVal (c : Char) : Nat := c.toNat - 48

/-- Gregorian leap-year rule. -/
def isLeapYear (y : Nat) : Bool := (y % 4 == 0 && y % 100 != 0) || y % 400 == 0

/-- Number of days of month m in year y. -/
def daysInMonth (y m : Nat) : Nat :=
  if m = 2 then (if isLeapYear y then 29 else 28)
  else if m = 4 ∨ m = 6 ∨ m = 9 ∨ m = 11 then 30
  else 31

/-- Injective Nat encoding of a calendar date (used as the day code of a
parsed timestamp; m * 32 + d stays below 512). -/
def dateOrd (y m d : Nat) : Nat := y * 512 + m * 32 + d

/-- pd.to_datetime(x, format="%y%m%d", errors="coerce") (src/app.py line
349): exactly six ASCII digits, two-digit year with the pandas pivot
(00-68 maps to 2000-2068, 69-99 to 1969-1999), and a valid calendar
month/day; anything else coerces to NaT, modelled as none. -/
def parseYYMMDD (s : String) : Option Nat :=
  match s.data with
  | [c1, c2, c3, c4, c5, c6] =>
    if c1.isDigit && c2.isDigit && c3.isDigit && c4.isDigit && c5.isDigit && c6.isDigit then
      let yy := digitVal c1 * 10 + digitVal c2
      let y := if yy ≤ 68 then 2000 + yy else 1900 + yy
      let m := digitVal c3 * 10 + digitVal c4
      let d := digitVal c5 * 10 + digitVal c6
      if 1 ≤ m && m ≤ 12 && 1 ≤ d && d ≤ daysInMonth y m then some (dateOrd y m d) else none
    else none
  | _ => none

/-- Static L2-to-L1 tag lookup table (src/app.py lines 221-230). -/
def L2_TO_L1_MAPPING : List (String × String) :=
  [("로그인/인증", "계정"), ("정보 관리", "계정"), ("기술 오류", "시스템/환경"),
   ("결제 오류/미지급", "재화/결제"), ("환불/청약철회", "재화/결제"), ("재화 소실/오류", "재화/결제"),
   ("클래스/구독 상품", "재화/결제"), ("재화 정책/한도", "재화/결제"), ("밸런스/불만 (패몰림)", "게임 플레이"),
   ("콘텐츠 오류/문의", "게임 플레이"), ("토너먼트/대회", "게임 플레이"), ("점령전/거점전", "게임 플레이"),
   ("랭킹페스타", "게임 플레이"), ("연승챌린지", "게임 플레이"), ("패밀리게임", "게임 플레이"),
   ("광고/무료충전소", "이벤트/혜택"), ("이벤트", "이벤트/혜택"), ("비매너/욕설 신고", "불량 이용자"),
   ("제재 문의", "불량 이용자"), ("콘텐츠/시스템 건의", "정책/건의 (VOC)"), ("운영/정책 건의", "정책/건의 (VOC)"),
   ("단순 문의/미분류", "기타")]

/-- RawRow models one merged spreadsheet row restricted to the columns the
normalization pipeline reads: 접수 카테고리, 상담제목, 문의내용, taglist,
날짜, and the PC-path column 고객정보 (row.get with default "" when the
column is absent is covered by a Cell.str "" value). -/
structure RawRow where
  cat : Cell
  title : Cell
  inquiry : Cell
  taglist : Cell
  dateRaw : Cell
  custInfo : Cell
deriving DecidableEq, Repr

/-- Record models one row of the normalized table produced by
load_voc_data, carrying the derived columns the claims touch.  date is
the parsed 날짜_dt day code (the UTC-to-KST localization in the source
does not move the calendar day), rawDate the 날짜 string, summary the
문의내용_요약 column (검색용_문의내용 is a copy of it, src/app.py line
360). -/
structure Record where
  date : Nat
  rawDate : String
  game : String
  platform : String
  tagL2 : String
  tagL1 : String
  title : String
  inquiry : String
  custInfo : String
  gsn : String
  device : String
  summary : String
  sentiment : String
deriving DecidableEq, Repr

/-- Normalization of one raw row by load_voc_data (src/app.py lines
340-361): every used column is stringified (astype(str)), the 날짜 string
is parsed with format %y%m%d, rows whose parse coerces to NaT are dropped
(dropna, line 350), and the derived columns are computed with the
classifier functions. -/
def normalizeRow (r : RawRow) : Option Record :=
  let catS := r.cat.toPyStr
  let titleS := r.title.toPyStr
  let inqS := r.inquiry.toPyStr
  let tagS := r.taglist.toPyStr
  let dateS := r.dateRaw.toPyStr
  let custS := r.custInfo.toPyStr
  match parseYYMMDD dateS with
  | none => none
  | some d =>
    let game := classify_game (Cell.str catS)
    let plat := classify_platform (Cell.str catS)
    some
      { date := d
        rawDate := dateS
        game := game
        platform := plat
        tagL2 := tagS
        tagL1 := (List.lookup tagS L2_TO_L1_MAPPING).getD "기타"
        title := titleS
        inquiry := inqS
        custInfo := custS
        gsn := extract_gsn_usn plat inqS custS
        device := extract_device_info plat inqS
        summary := truncate_inquiry_content (Cell.str inqS)
        sentiment := classify_sentiment (Cell.str inqS) }

/-- Row-normalization part of load_voc_data: the merged raw rows are
normalized one by one and the rows failing date parsing are dropped. -/
def load_voc_data (rows : List RawRow) : List Record :=
  rows.filterMap normalizeRow

/-- Worksheet-title filter re.match(r'^\d{2}-\d{2}$', title) of
load_voc_data (src/app.py lines 300, 315): exactly two ASCII digits, a
hyphen, and two ASCII digits (re's $ also admits one trailing newline). -/
def matchYYMM (s : List Char) : Bool :=
  match s with
  | [a, b, h, c, d] => (h == '-') && a.isDigit && b.isDigit && c.isDigit && d.isDigit
  | [a, b, h, c, d, nl] => (h == '-') && (nl == '\n') && a.isDigit && b.isDigit && c.isDigit && d.isDigit
  | _ => false

/-- Worksheet titles skipped by the daily-sheet fallback branch of
load_voc_data (src/app.py line 313). -/
def skipDailyTitles : List String := ["sheet1", "template", "mapping", "user_management"]

/-- Lowercased-title membership test of the fallback skip list. -/
def skipDailyTitle (t : String) : Bool := skipDailyTitles.contains t.toLower

/-- Worksheet selection of load_voc_data (src/app.py lines 299-325): when
any title matches the monthly pattern, exactly the matching worksheets
are read; otherwise the daily-sheet fallback reads every worksheet except
the skip list (the monthly-pattern exclusion inside the fallback is dead
there, kept for faithfulness). -/
def selectWorksheets {β : Type} (sheets : List (String × List β)) : List (String × List β) :=
  if (sheets.filter (fun ws => matchYYMM ws.1.data)).isEmpty then
    sheets.filter (fun ws => !skipDailyTitle ws.1 && !matchYYMM ws.1.data)
  else sheets.filter (fun ws => matchYYMM ws.1.data)

/-- Merged raw table of load_voc_data: concatenation of the rows of every
selected worksheet (an empty row list contributes nothing either way). -/
def load_merged_rows {β : Type} (sheets : List (String × List β)) : List β :=
  (selectWorksheets sheets).flatMap (fun ws => ws.2)

/-- Modelled from the spec (refinement comparison for C2): a partition
identifier of the form YY-MM or YYYY-MM, a two-or-four-digit year, a
hyphen separator, and a two-digit month. -/
def specPartitionPattern (s : List Char) : Bool :=
  match s with
  | [a, b, h, c, d] => (h == '-') && a.isDigit && b.isDigit && c.isDigit && d.isDigit
  | [a, b, a2, b2, h, c, d] =>
    (h == '-') && a.isDigit && b.isDigit && a2.isDigit && b2.isDigit && c.isDigit && d.isDigit
  | _ => false

/-- groupby(날짜_dt.date).size() over a record list (src/app.py line 451):
the distinct day codes, each paired with its occurrence count. -/
def dailyCounts (data : List Record) : List (Nat × Nat) :=
  ((data.map (fun r => r.date)).dedup).map
    (fun d => (d, (data.filter (fun r => r.date == d)).length))

/-- Daily trend series of create_trend_chart (src/app.py lines 447-454):
pd.date_range(start, end) is the day interval, the left merge with the
grouped daily counts keeps one row per day in order, and fillna(0) zero
fills the days without records. -/
def create_trend_chart (data : List Record) (startDate endDate : Nat) : List (Nat × Nat) :=
  ((List.range (endDate + 1 - startDate)).map (fun i => startDate + i)).map
    (fun d => (d, ((dailyCounts data).lookup d).getD 0))

/-- Descending-count order used to model the value_counts sort. -/
def byCountDesc (a b : String × Nat) : Prop := b.2 ≤ a.2

instance : DecidableRel byCountDesc := fun a b => Nat.decLe b.2 a.2

instance : IsTotal (String × Nat) byCountDesc := ⟨fun a b => Nat.le_total b.2 a.2⟩

instance : IsTrans (String × Nat) byCountDesc := ⟨fun _ _ _ hab hbc => Nat.le_trans hbc hab⟩

/-- value_counts() over a column (src/app.py line 470): distinct values
with occurrence counts, sorted by descending count (stable insertion sort
as the tie determinization). -/
def valueCounts (values : List String) : List (String × Nat) :=
  List.insertionSort byCountDesc
    (values.dedup.map (fun v => (v, (values.filter (fun x => x == v)).length)))

/-- Chart data of create_donut_chart (src/app.py lines 469-476): with more
than 5 distinct values, keep the 4 largest (nlargest(4) on the
descending-sorted counts is its first 4 entries) and collapse the rest
(iloc[4:]) into a synthetic 기타 bucket holding their sum; otherwise the
counts pass through unmodified. -/
def create_donut_chart (values : List String) : List (String × Nat) :=
  if 5 < (valueCounts values).length then
    (valueCounts values).take 4 ++
      [("기타", (((valueCounts values).drop 4).map Prod.snd).sum)]
  else valueCounts values

/-- Columns of the grouped daily_counts frame built at src/app.py line
384: reset_index on the groupby over (날짜_dt.date, 게임) with
name="count". -/
def dailyCountsColumns : List String := ["날짜_dt", "게임", "count"]

/-- pandas column selection df[c]: a missing column name raises KeyError. -/
def colSelect (cols : List String) (c : String) : Except String Unit :=
  if c ∈ cols then Except.ok () else Except.error ("KeyError: " ++ c)

/-- Fixed game list of get_yesterday_summary_by_game (src/app.py line
378, the GAME_ICONS keys). -/
def GAME_ICON_KEYS : List String := ["뉴맞고", "섯다", "포커", "쇼다운홀덤", "뉴베가스"]

/-- get_yesterday_summary_by_game (src/app.py lines 369-441).  The empty
guard (line 372; the 날짜_dt column always exists in the typed table)
returns the empty dict.  Otherwise the grouped daily_counts frame is
built with columns dailyCountsColumns and line 386 immediately evaluates
the column selection daily_counts["날날짜_dt"] — a misspelling of
날짜_dt — which raises KeyError in pandas before any summary is
assembled.  The raise is modelled as Except.error; the per-game summary
construction of lines 389-439 is unreachable on every input, so the ok
branch carries only a placeholder value. -/
def get_yesterday_summary_by_game (voc_df : List Record) (_currentDate : Nat) :
    Except String (List (String × Nat)) :=
  if voc_df.isEmpty then Except.ok []
  else
    match colSelect dailyCountsColumns "날날짜_dt" with
    | Except.error e => Except.error e
    | Except.ok _ => Except.ok (GAME_ICON_KEYS.map (fun g => (g, 0)))

/-- Python keyword.split(","): split on every comma, keeping empty
pieces. -/
def splitComma : List Char → List (List Char)
  | [] => [[]]
  | c :: cs =>
    if c = ',' then [] :: splitComma cs
    else
      match splitComma cs with
      | t :: ts => (c :: t) :: ts
      | [] => [[c]]

/-- Keyword parsing of the search tab (src/app.py line 981): split on
commas, strip each piece, and drop the empty ones (re.escape only makes
each token literal, so it does not change the matching semantics). -/
def tokensOf (kw : List Char) : List (List Char) :=
  ((splitComma kw).map pyStrip).filter (fun t => !t.isEmpty)

/-- Lowercasing of a character list (case-insensitive matching). -/
def lowerL (l : List Char) : List Char := l.map Char.toLower

/-- str.contains(alternation, case=False, regex=True) with literal tokens
(src/app.py lines 985-986): the field matches when some token occurs as a
case-insensitive substring. -/
def fieldMatches (toks : List (List Char)) (text : List Char) : Bool :=
  toks.any (fun tok => containsSub (lowerL tok) (lowerL text))

/-- Keyword search of the search tab (src/app.py lines 979-987): an empty
keyword string, or one whose parsed token list is empty, performs no
filtering and leaves the record subset unchanged; otherwise a record is
kept when its 상담제목 or its 검색용_문의내용 (the summary column)
matches some token. -/
def searchVoc (records : List Record) (keyword : List Char) : List Record :=
  if keyword.isEmpty then records
  else if (tokensOf keyword).isEmpty then records
  else
    records.filter (fun r =>
      fieldMatches (tokensOf keyword) r.title.data ||
        fieldMatches (tokensOf keyword) r.summary.data)

/-- Sample raw row used by concrete witnesses. -/
def sampleRaw : RawRow :=
  { cat := Cell.str "뉴맞고 MOB"
    title := Cell.str "t"
    inquiry := Cell.str "오류"
    taglist := Cell.str "이벤트"
    dateRaw := Cell.str "251010"
    custInfo := Cell.str "" }

/-- Normalized record produced from sampleRaw by the pipeline. -/
def sampleRecord : Record :=
  { date := dateOrd 2025 10 10
    rawDate := "251010"
    game := "뉴맞고"
    platform := "MOB"
    tagL2 := "이벤트"
    tagL1 := "이벤트/혜택"
    title := "t"
    inquiry := "오류"
    custInfo := ""
    gsn := ""
    device := ""
    summary := "오류"
    sentiment := "부정" }

/-! Helper lemmas -/

/-- List.lookup over an association list whose value is a function of the
key returns that function of the key exactly when the key occurs. -/
theorem lookup_map_self (l : List Nat) (g : Nat → Nat) (d : Nat) :
    List.lookup d (l.map fun x => (x, g x)) = if d ∈ l then some (g d) else none := by
  induction l with
  | nil => simp
  | cons x xs ih =>
    by_cases h : d = x
    · subst h
      simp [List.lookup_cons]
    · simp [List.lookup_cons, beq_eq_false_iff_ne.mpr h, ih, h]

/-- A successful association-list lookup returns a pair of the list. -/
theorem lookup_some_mem {α β : Type} [BEq α] [LawfulBEq α] {l : List (α × β)} {k : α} {v : β}
    (h : List.lookup k l = some v) : (k, v) ∈ l := by
  induction l with
  | nil => simp [List.lookup] at h
  | cons p ps ih =>
    obtain ⟨a, b⟩ := p
    rw [List.lookup_cons] at h
    cases hbe : k == a with
    | true =>
      rw [hbe] at h
      obtain rfl : b = v := by simpa using h
      exact List.mem_cons.mpr (Or.inl (by rw [beq_iff_eq.mp hbe]))
    | false =>
      rw [hbe] at h
      exact List.mem_cons.mpr (Or.inr (ih h))

/-- Every L1 value of the static mapping, and the 기타 default, is a
non-empty string. -/
theorem tagL1_default_ne_empty (k : String) :
    (List.lookup k L2_TO_L1_MAPPING).getD "기타" ≠ "" := by
  cases h : List.lookup k L2_TO_L1_MAPPING with
  | none => simp only [Option.getD_none]; decide
  | some v =>
    have hv : (k, v) ∈ L2_TO_L1_MAPPING := lookup_some_mem h
    have hall : ∀ p ∈ L2_TO_L1_MAPPING, p.2 ≠ "" := by decide
    simpa using hall _ hv

/-! Claim theorems -/

/-- C1: the claim states that for every non-empty normalized table and
every asOfDate, get_yesterday_summary_by_game returns per-game counts,
deltas and negative ratios without throwing.  On the code this fails: for
every non-empty table, line 386 selects the misspelled column 날날짜_dt
from the grouped frame whose columns are 날짜_dt, 게임 and count, which
raises KeyError before any summary is built. -/
theorem claim1_yesterday_summary_keyerror (voc_df : List Record) (currentDate : Nat)
    (h : voc_df ≠ []) :
    get_yesterday_summary_by_game voc_df currentDate = Except.error "KeyError: 날날짜_dt" := by
  match voc_df, h with
  | a :: l, _ => rfl

/-- Witness for claim1 at a concrete one-record table. -/
theorem claim1_yesterday_summary_keyerror_witness :
    get_yesterday_summary_by_game [sampleRecord] 0 = Except.error "KeyError: 날날짜_dt" :=
  claim1_yesterday_summary_keyerror [sampleRecord] 0 (by decide)

/-- C2 counterexample: the worksheet title 2025-10 matches the spec's
YYYY-MM partition pattern, yet when a two-digit monthly sheet is also
present its rows are not part of the merged table, so the claim as stated
fails. -/
theorem claim2_counterexample :
    specPartitionPattern "2025-10".data = true ∧
    (1 : Nat) ∉ load_merged_rows [("25-09", [0]), ("2025-10", [1])] := by
  exact ⟨by decide, by decide⟩

/-- C2 amended: the Loader merges the rows of every worksheet whose title
matches the two-digit pattern of re.match(r'^\d{2}-\d{2}$', title); a
four-digit-year YYYY-MM title does not match this pattern. -/
theorem claim2_monthly_rows_included {β : Type} (sheets : List (String × List β))
    (t : String) (rows : List β) (hmem : (t, rows) ∈ sheets)
    (hpat : matchYYMM t.data = true) (r : β) (hr : r ∈ rows) :
    r ∈ load_merged_rows sheets := by
  have hmem2 : (t, rows) ∈ sheets.filter (fun ws => matchYYMM ws.1.data) :=
    List.mem_filter.mpr ⟨hmem, hpat⟩
  have hfalse : (sheets.filter (fun ws => matchYYMM ws.1.data)).isEmpty = false :=
    List.isEmpty_eq_false.mpr (List.ne_nil_of_mem hmem2)
  unfold load_merged_rows selectWorksheets
  rw [hfalse]
  simp only [Bool.false_eq_true, if_false]
  exact List.mem_flatMap.mpr ⟨(t, rows), hmem2, hr⟩

/-- Witness for the amended claim2 at a concrete worksheet list. -/
theorem claim2_monthly_rows_included_witness :
    (0 : Nat) ∈ load_merged_rows [("25-09", [0]), ("2025-10", [1])] :=
  claim2_monthly_rows_included _ "25-09" [0] (by decide) (by decide) 0 (by decide)

/-- C6: the classifier functions are total with defined defaults: a
whitespace-only string, a missing value, and the number 123 all classify
to the game 기타, and classify_sentiment maps every non-string input to
중립. -/
theorem claim6_classifier_defaults :
    classify_game (Cell.str "  ") = "기타" ∧ classify_game Cell.na = "기타" ∧
    classify_game (Cell.int 123) = "기타" ∧
    ∀ c : Cell, c.isStr = false → classify_sentiment c = "중립" := by
  refine ⟨by decide, rfl, by decide, ?_⟩
  intro c hc
  cases c with
  | na => rfl
  | str s => simp [Cell.isStr] at hc
  | int n => rfl

/-- Witness for claim6 at a concrete non-string cell. -/
theorem claim6_classifier_defaults_witness :
    classify_sentiment (Cell.int 5) = "중립" :=
  claim6_classifier_defaults.2.2.2 (Cell.int 5) (by decide)

/-- Keyword-set indices beyond the five source checks are empty. -/
theorem gameKeys_ge_five (k : Nat) : gameKeys (k + 5) = [] := rfl

/-- A matching keyword-set index is one of the five source checks. -/
theorem gameMatch_lt_five {i : Nat} {p : List Char} (h : gameMatch i p = true) : i < 5 := by
  by_contra h5
  push_neg at h5
  obtain ⟨k, rfl⟩ : ∃ k, i = k + 5 := ⟨i - 5, by omega⟩
  rw [gameMatch, gameKeys_ge_five] at h
  simp at h

/-- C5: classification is order-sensitive with first-match-wins priority.
Whenever the normalized category matches the keyword sets of two indices
i before j, classify_game returns the game of some index at most i (so
never the lower-priority game j), and on the concrete category string
NEW_MATGO_for_kakao the game is 뉴맞고 and the platform is for kakao, the
portal keyword being checked first. -/
theorem claim5_priority_order :
    (∀ (s : String) (i j : Nat), i < j → gameMatch i (normalizeCat s) = true →
      gameMatch j (normalizeCat s) = true →
      ∃ k, k ≤ i ∧ gameMatch k (normalizeCat s) = true ∧
        classify_game (Cell.str s) = gameName k) ∧
    classify_game (Cell.str "NEW_MATGO_for_kakao") = "뉴맞고" ∧
    classify_platform (Cell.str "NEW_MATGO_for_kakao") = "for kakao" := by
  refine ⟨?_, by decide, by decide⟩
  intro s i j hij hi hj
  have hj5 : j < 5 := gameMatch_lt_five hj
  by_cases g0 : gameMatch 0 (normalizeCat s) = true
  · exact ⟨0, Nat.zero_le i, g0, by simp [classify_game, Cell.toPyStr, g0, gameName]⟩
  · have hi0 : i ≠ 0 := fun h => g0 (h ▸ hi)
    by_cases g1 : gameMatch 1 (normalizeCat s) = true
    · exact ⟨1, by omega, g1, by simp [classify_game, Cell.toPyStr, g0, g1, gameName]⟩
    · have hi1 : i ≠ 1 := fun h => g1 (h ▸ hi)
      by_cases g2 : gameMatch 2 (normalizeCat s) = true
      · exact ⟨2, by omega, g2, by simp [classify_game, Cell.toPyStr, g0, g1, g2, gameName]⟩
      · have hi2 : i ≠ 2 := fun h => g2 (h ▸ hi)
        by_cases g3 : gameMatch 3 (normalizeCat s) = true
        · exact ⟨3, by omega, g3, by simp [classify_game, Cell.toPyStr, g0, g1, g2, g3, gameName]⟩
        · have hi3 : i ≠ 3 := fun h => g3 (h ▸ hi)
          exfalso
          have hi4 : i ≠ 4 := by omega
          have hi5 : i < 5 := gameMatch_lt_five hi
          omega

/-- Witness for claim5 on a category matching both the 뉴맞고 keywords
(index 2) and the 포커 keywords (index 4). -/
theorem claim5_priority_order_witness :
    ∃ k, k ≤ 2 ∧ gameMatch k (normalizeCat "newmatgopoker") = true ∧
      classify_game (Cell.str "newmatgopoker") = gameName k :=
  claim5_priority_order.1 "newmatgopoker" 2 4 (by omega) (by decide) (by decide)

/-- The merged daily count of a day: the grouped lookup with fillna(0)
equals the number of records dated that day. -/
theorem dailyCounts_lookup_getD (data : List Record) (d : Nat) :
    ((dailyCounts data).lookup d).getD 0 = (data.filter (fun r => r.date == d)).length := by
  unfold dailyCounts
  rw [lookup_map_self]
  by_cases h : d ∈ (data.map (fun r => r.date)).dedup
  · simp [h]
  · have h2 : d ∉ data.map (fun r => r.date) := fun hm => h (List.mem_dedup.mpr hm)
    have h3 : data.filter (fun r => r.date == d) = [] := by
      apply List.filter_eq_nil_iff.mpr
      intro r hr hb
      exact h2 (List.mem_map.mpr ⟨r, hr, beq_iff_eq.mp hb⟩)
    simp [h, h3]

/-- C3: for every record set and every valid day range, the daily trend
series of create_trend_chart has exactly endDate - startDate + 1 entries,
the i-th entry is the i-th calendar day of the range paired with the
number of records dated that day, and days without records carry the
zero-filled count 0. -/
theorem claim3_daily_trend (data : List Record) (startDate endDate : Nat)
    (h : startDate ≤ endDate) :
    (create_trend_chart data startDate endDate).length = endDate - startDate + 1 ∧
    ∀ i, i < endDate - startDate + 1 →
      (create_trend_chart data startDate endDate)[i]? =
        some (startDate + i, (data.filter (fun r => r.date == startDate + i)).length) := by
  constructor
  · simp only [create_trend_chart, List.length_map, List.length_range]
    omega
  · intro i hi
    have hi2 : i < endDate + 1 - startDate := by omega
    simp only [create_trend_chart, List.getElem?_map, List.getElem?_range hi2,
      dailyCounts_lookup_getD]
    rfl

/-- Witness for claim3: a one-record table over a two-day range, the
empty day zero-filled. -/
theorem claim3_daily_trend_witness :
    (create_trend_chart [sampleRecord] (dateOrd 2025 10 9) (dateOrd 2025 10 10)).length = 2 ∧
    (create_trend_chart [sampleRecord] (dateOrd 2025 10 9) (dateOrd 2025 10 10))[0]? =
      some (dateOrd 2025 10 9, 0) := by
  have h := claim3_daily_trend [sampleRecord] (dateOrd 2025 10 9) (dateOrd 2025 10 10) (by decide)
  constructor
  · rw [h.1]
    decide
  · rw [h.2 0 (by decide)]
    decide

/-- C7: every record of the normalized table has a date successfully
parsed from its 6-digit YYMMDD token (rows failing the parse are dropped
by dropna and never enter the table), and its L1 tag is the static-lookup
image of its L2 tag with the non-empty default 기타, hence never empty. -/
theorem claim7_load_invariants (rows : List RawRow) (rec : Record)
    (h : rec ∈ load_voc_data rows) :
    parseYYMMDD rec.rawDate = some rec.date ∧
    rec.tagL1 = (List.lookup rec.tagL2 L2_TO_L1_MAPPING).getD "기타" ∧
    rec.tagL1 ≠ "" := by
  obtain ⟨r, _, hnorm⟩ := List.mem_filterMap.mp h
  cases hparse : parseYYMMDD r.dateRaw.toPyStr with
  | none => simp [normalizeRow, hparse] at hnorm
  | some d =>
    simp only [normalizeRow, hparse] at hnorm
    obtain rfl := Option.some.inj hnorm
    exact ⟨hparse, rfl, tagL1_default_ne_empty _⟩

/-- Witness for claim7 on the concrete sample row. -/
theorem claim7_load_invariants_witness :
    parseYYMMDD sampleRecord.rawDate = some sampleRecord.date ∧
    sampleRecord.tagL1 = (List.lookup sampleRecord.tagL2 L2_TO_L1_MAPPING).getD "기타" ∧
    sampleRecord.tagL1 ≠ "" :=
  claim7_load_invariants [sampleRaw] sampleRecord (by decide)

/-- Splitting a comma-free string yields the single whole piece. -/
theorem splitComma_no_comma {a : List Char} (ha : ',' ∉ a) : splitComma a = [a] := by
  induction a with
  | nil => rfl
  | cons c cs ih =>
    have hc : ¬ c = ',' := fun h => ha (List.mem_cons.mpr (Or.inl h.symm))
    have ih2 := ih (fun h => ha (List.mem_cons.mpr (Or.inr h)))
    simp [splitComma, hc, ih2]

/-- Splitting peels a comma-free piece off the front at its comma. -/
theorem splitComma_append {pre rest : List Char} (hpre : ',' ∉ pre) :
    splitComma (pre ++ ',' :: rest) = pre :: splitComma rest := by
  induction pre with
  | nil => simp [splitComma]
  | cons c cs ih =>
    have hc : ¬ c = ',' := fun h => hpre (List.mem_cons.mpr (Or.inl h.symm))
    have ih2 := ih (fun h => hpre (List.mem_cons.mpr (Or.inr h)))
    simp [splitComma, hc, ih2]

/-- C9: search laws.  An empty keyword string, or any keyword string whose
parsed token list is empty, yields the full record subset unchanged, and
a duplicated comma-free keyword yields exactly the same result as the
single keyword, the match being a case-insensitive OR of literal
substring tests over the title and sanitized-body fields. -/
theorem claim9_search_laws (rs : List Record) (kw a : List Char)
    (hkw : tokensOf kw = []) (ha : ',' ∉ a) :
    searchVoc rs [] = rs ∧ searchVoc rs kw = rs ∧
    searchVoc rs (a ++ ',' :: a) = searchVoc rs a := by
  refine ⟨rfl, ?_, ?_⟩
  · by_cases hk : kw.isEmpty
    · simp [searchVoc, hk]
    · simp [searchVoc, hk, hkw]
  · have hsplit : splitComma (a ++ ',' :: a) = [a, a] := by
      rw [splitComma_append ha, splitComma_no_comma ha]
    have hne : (a ++ ',' :: a).isEmpty = false := by
      cases a <;> rfl
    by_cases hs : (pyStrip a).isEmpty
    · have h1 : tokensOf (a ++ ',' :: a) = [] := by simp [tokensOf, hsplit, hs]
      have h2 : tokensOf a = [] := by simp [tokensOf, splitComma_no_comma ha, hs]
      simp [searchVoc, hne, h1, h2]
    · have h1 : tokensOf (a ++ ',' :: a) = [pyStrip a, pyStrip a] := by
        simp [tokensOf, hsplit, hs]
      have h2 : tokensOf a = [pyStrip a] := by
        simp [tokensOf, splitComma_no_comma ha, hs]
      have hane : a.isEmpty = false := by
        cases a with
        | nil => simp [pyStrip] at hs
        | cons c cs => rfl
      simp only [searchVoc, hne, hane, Bool.false_eq_true, if_false, h1, h2,
        List.isEmpty_cons]
      apply List.filter_congr
      intro r _
      simp [fieldMatches]

/-- Witness for claim9 on a one-record subset, a token-free keyword
string, and a concrete duplicated keyword. -/
theorem claim9_search_laws_witness :
    searchVoc [sampleRecord] [] = [sampleRecord] ∧
    searchVoc [sampleRecord] " , ".data = [sampleRecord] ∧
    searchVoc [sampleRecord] ("오류".data ++ ',' :: "오류".data) =
      searchVoc [sampleRecord] "오류".data :=
  claim9_search_laws [sampleRecord] " , ".data "오류".data (by decide) (by decide)

/-- The kept portion is a prefix of the text. -/
theorem takeBefore_leading (m : List Char) (cs : List Char) : takeBefore m cs <+: cs := by
  induction cs with
  | nil => simp [takeBefore]
  | cons c cs ih =>
    unfold takeBefore
    by_cases h : m.isPrefixOf (c :: cs) = true
    · rw [if_pos h]
      exact List.nil_prefix
    · rw [if_neg h]
      obtain ⟨t2, ht2⟩ := ih
      exact ⟨t2, by rw [List.cons_append, ht2]⟩

/-- No occurrence of the marker starts strictly before the cut position. -/
theorem takeBefore_min (m : List Char) (cs : List Char) :
    ∀ j, j < (takeBefore m cs).length → ¬ m <+: cs.drop j := by
  induction cs with
  | nil => intro j hj; simp [takeBefore] at hj
  | cons c cs ih =>
    intro j hj
    by_cases h : m.isPrefixOf (c :: cs) = true
    · simp [takeBefore, h] at hj
    · rw [takeBefore, if_neg h] at hj
      cases j with
      | zero =>
        intro habs
        exact h (List.isPrefixOf_iff_prefix.mpr (by simpa using habs))
      | succ j2 =>
        intro habs
        exact ih j2 (by simpa using hj) (by simpa using habs)

/-- When the cut position lies inside the text, the marker occurs there. -/
theorem takeBefore_stops (m : List Char) (cs : List Char)
    (h : (takeBefore m cs).length < cs.length) :
    m <+: cs.drop (takeBefore m cs).length := by
  induction cs with
  | nil => simp [takeBefore] at h
  | cons c cs ih =>
    by_cases hm : m.isPrefixOf (c :: cs) = true
    · simp only [takeBefore, hm, if_true, List.length_nil, List.drop_zero]
      exact List.isPrefixOf_iff_prefix.mp hm
    · rw [takeBefore, if_neg hm] at h ⊢
      simp only [List.length_cons, List.drop_succ_cons]
      exact ih (by simpa using h)

/-- C10: truncate_inquiry_content keeps the portion of the text preceding
the first occurrence of the 회원번호 : marker (the whole text when the
marker is absent: the kept portion is a prefix, no occurrence starts
before its end, and an occurrence starts at its end whenever it is
proper), strips it, caps it at 300 characters, and appends the literal
suffix ... exactly when the stripped portion exceeds 300 characters; a
non-string input yields the empty string. -/
theorem claim10_truncate :
    (∀ c : Cell, c.isStr = false → truncate_inquiry_content c = "") ∧
    ∀ s : String,
      takeBefore memberMarker s.data <+: s.data ∧
      (∀ j, j < (takeBefore memberMarker s.data).length →
        ¬ memberMarker <+: s.data.drop j) ∧
      ((takeBefore memberMarker s.data).length < s.data.length →
        memberMarker <+: s.data.drop (takeBefore memberMarker s.data).length) ∧
      (truncate_inquiry_content (Cell.str s)).data =
        (pyStrip (takeBefore memberMarker s.data)).take 300 ++
          (if 300 < (pyStrip (takeBefore memberMarker s.data)).length then "...".data else []) := by
  constructor
  · intro c hc
    cases c with
    | na => rfl
    | str s => simp [Cell.isStr] at hc
    | int n => rfl
  · intro s
    exact ⟨takeBefore_leading _ _, takeBefore_min _ _, takeBefore_stops _ _, rfl⟩

/-- Witness for claim10: a non-string input, and a concrete string where
the marker occurrence is found exactly at the cut position. -/
theorem claim10_truncate_witness :
    truncate_inquiry_content Cell.na = "" ∧
    memberMarker <+:
      ("ab회원번호 : 1".data.drop (takeBefore memberMarker "ab회원번호 : 1".data).length) := by
  refine ⟨claim10_truncate.1 Cell.na (by decide), ?_⟩
  exact (claim10_truncate.2 "ab회원번호 : 1").2.2.1 (by decide)

/-- The ten decimal digit characters. -/
def digitChars : List Char := ['0', '1', '2', '3', '4', '5', '6', '7', '8', '9']

/-- digitChar always produces a decimal digit character. -/
theorem digitChar_mem (d : Nat) : digitChar d ∈ digitChars := by
  unfold digitChar
  split_ifs <;> decide

/-- Every character put into the accumulator by natDigitsAux is a decimal
digit character. -/
theorem natDigitsAux_mem (fuel : Nat) : ∀ (n : Nat) (acc : List Char),
    (∀ c ∈ acc, c ∈ digitChars) → ∀ c ∈ natDigitsAux fuel n acc, c ∈ digitChars := by
  induction fuel with
  | zero =>
    intro n acc hacc c hc
    exact hacc c hc
  | succ f ih =>
    intro n acc hacc c hc
    by_cases hn : n = 0
    · rw [natDigitsAux, if_pos hn] at hc
      exact hacc c hc
    · rw [natDigitsAux, if_neg hn] at hc
      refine ih (n / 10) _ ?_ c hc
      intro x hx
      rcases List.mem_cons.mp hx with h | h
      · exact h ▸ digitChar_mem _
      · exact hacc x h

/-- Every character of natDigits is a decimal digit character. -/
theorem natDigits_mem (n : Nat) : ∀ c ∈ natDigits n, c ∈ digitChars := by
  unfold natDigits
  by_cases hn : n = 0
  · rw [if_pos hn]
    intro c hc
    simp only [List.mem_singleton] at hc
    subst hc
    decide
  · rw [if_neg hn]
    exact natDigitsAux_mem (n + 1) n [] (by simp)

/-- A decimal digit character satisfies Char.isDigit. -/
theorem digitChars_isDigit {c : Char} (h : c ∈ digitChars) : c.isDigit = true := by
  simp only [digitChars, List.mem_cons, List.not_mem_nil, or_false] at h
  rcases h with rfl | rfl | rfl | rfl | rfl | rfl | rfl | rfl | rfl | rfl <;> decide

/-- A decimal digit character is not regex whitespace. -/
theorem digitChars_not_pySpace {c : Char} (h : c ∈ digitChars) : pySpace c = false := by
  simp only [digitChars, List.mem_cons, List.not_mem_nil, or_false] at h
  rcases h with rfl | rfl | rfl | rfl | rfl | rfl | rfl | rfl | rfl | rfl <;> decide

/-- natDigitsAux only ever extends the front of its accumulator. -/
theorem natDigitsAux_append (fuel : Nat) : ∀ n acc,
    ∃ pre, natDigitsAux fuel n acc = pre ++ acc := by
  induction fuel with
  | zero => intro n acc; exact ⟨[], rfl⟩
  | succ f ih =>
    intro n acc
    by_cases hn : n = 0
    · exact ⟨[], by rw [natDigitsAux, if_pos hn]; rfl⟩
    · obtain ⟨pre, hpre⟩ := ih (n / 10) (digitChar (n % 10) :: acc)
      refine ⟨pre ++ [digitChar (n % 10)], ?_⟩
      rw [natDigitsAux, if_neg hn, hpre]
      simp

/-- The decimal digit string is never empty. -/
theorem natDigits_ne_nil (n : Nat) : natDigits n ≠ [] := by
  unfold natDigits
  by_cases hn : n = 0
  · rw [if_pos hn]; simp
  · rw [if_neg hn]
    obtain ⟨pre, hpre⟩ := natDigitsAux_append n (n / 10) [digitChar (n % 10)]
    rw [show natDigitsAux (n + 1) n [] = natDigitsAux n (n / 10) (digitChar (n % 10) :: [])
      from by rw [natDigitsAux, if_neg hn]]
    rw [hpre]
    simp

/-- takeWhile over an all-satisfying list followed by a failing head
keeps exactly the list. -/
theorem takeWhile_append_all {p : Char → Bool} {l t : List Char}
    (hl : ∀ c ∈ l, p c = true) (ht : ∀ c, t.head? = some c → p c = false) :
    (l ++ t).takeWhile p = l := by
  induction l with
  | nil =>
    simp only [List.nil_append]
    cases t with
    | nil => rfl
    | cons c cs =>
      have hc := ht c (by simp)
      simp [List.takeWhile_cons, hc]
  | cons a l ih =>
    have ha := hl a (by simp)
    have ih2 := ih (fun c hc => hl c (by simp [hc]))
    simp [List.takeWhile_cons, ha, ih2]

/-- The member-number pattern cannot match at a position whose first
character is not 회. -/
theorem matchMemberAt_cons_ne {c : Char} (hc : c ≠ '회') (cs : List Char) :
    matchMemberAt (c :: cs) = none := by
  have hpre : memberLabel.isPrefixOf (c :: cs) = false := by
    rw [show memberLabel = '회' :: '원' :: '번' :: '호' :: [] from rfl]
    simp only [List.isPrefixOf]
    simp [beq_eq_false_iff_ne.mpr (Ne.symm hc)]
  simp [matchMemberAt, hpre]

/-- At the marker itself, the pattern matches and captures exactly the
digit run that follows the colon. -/
theorem matchMemberAt_marker (d : Char) (ds t : List Char)
    (hd : pySpace d = false)
    (hdig : ∀ c ∈ d :: ds, Char.isDigit c = true)
    (ht : ∀ c, t.head? = some c → c.isDigit = false) :
    matchMemberAt ('회' :: '원' :: '번' :: '호' :: ' ' :: ':' :: ' ' :: ((d :: ds) ++ t))
      = some (d :: ds) := by
  unfold matchMemberAt
  rw [if_pos (by rfl)]
  show (if (((' ' :: ((d :: ds) ++ t)).dropWhile pySpace).takeWhile Char.isDigit).isEmpty = true
      then none
      else some (((' ' :: ((d :: ds) ++ t)).dropWhile pySpace).takeWhile Char.isDigit))
    = some (d :: ds)
  have h1 : (' ' :: ((d :: ds) ++ t)).dropWhile pySpace = (d :: ds) ++ t := by
    rw [List.dropWhile_cons]
    simp only [show pySpace ' ' = true from rfl, if_true]
    rw [List.cons_append, List.dropWhile_cons, hd]
    simp
  have hX : ((' ' :: ((d :: ds) ++ t)).dropWhile pySpace).takeWhile Char.isDigit = d :: ds := by
    rw [h1]
    exact takeWhile_append_all hdig ht
  rw [hX]
  simp

/-- Leftmost-search lemma: on a body built as prefix ++ marker ++ digits
++ suffix, where the prefix contains no 회 and the suffix does not start
with a digit, the search returns exactly the digit string. -/
theorem searchMember_construct (p : List Char) (hp : '회' ∉ p) (n : Nat) (t : List Char)
    (ht : ∀ c, t.head? = some c → c.isDigit = false) :
    searchMember (p ++ "회원번호 : ".data ++ natDigits n ++ t) = some (natDigits n) := by
  induction p with
  | nil =>
    obtain ⟨d, ds, hD⟩ : ∃ d ds, natDigits n = d :: ds := by
      cases hD : natDigits n with
      | nil => exact absurd hD (natDigits_ne_nil n)
      | cons d ds => exact ⟨d, ds, rfl⟩
    have hdig : ∀ c ∈ d :: ds, Char.isDigit c = true := by
      rw [← hD]
      exact fun c hc => digitChars_isDigit (natDigits_mem n c hc)
    have hd : pySpace d = false :=
      digitChars_not_pySpace (natDigits_mem n d (by rw [hD]; exact List.mem_cons_self d ds))
    rw [hD]
    show searchMember ('회' :: '원' :: '번' :: '호' :: ' ' :: ':' :: ' ' :: ((d :: ds) ++ t))
      = some (d :: ds)
    rw [searchMember, matchMemberAt_marker d ds t hd hdig ht]
  | cons c p2 ih =>
    have hc : c ≠ '회' := fun h => hp (List.mem_cons.mpr (Or.inl h.symm))
    have hp2 : '회' ∉ p2 := fun h => hp (List.mem_cons.mpr (Or.inr h))
    simp only [List.cons_append]
    rw [searchMember, matchMemberAt_cons_ne hc]
    exact ih hp2

/-- C8: identifier extraction round-trip.  For every natural number and
every MOB-platform record whose body is built as an arbitrary prefix (not
containing the marker head 회), the labeled token 회원번호 : followed by
the decimal digits of n, and a non-digit remainder, extract_gsn_usn
returns exactly the digit string of n. -/
theorem claim8_gsn_roundtrip (p t : List Char) (n : Nat) (custInfo : String)
    (hp : '회' ∉ p) (ht : ∀ c, t.head? = some c → c.isDigit = false) :
    extract_gsn_usn "MOB" (String.mk (p ++ "회원번호 : ".data ++ natDigits n ++ t)) custInfo
      = String.mk (natDigits n) := by
  unfold extract_gsn_usn
  rw [if_pos (Or.inl rfl)]
  rw [show (String.mk (p ++ "회원번호 : ".data ++ natDigits n ++ t)).data
    = p ++ "회원번호 : ".data ++ natDigits n ++ t from rfl]
  rw [searchMember_construct p hp n t ht]

/-- Witness for claim8 at a concrete body and the number 7. -/
theorem claim8_gsn_roundtrip_witness :
    extract_gsn_usn "MOB"
        (String.mk ("문의".data ++ "회원번호 : ".data ++ natDigits 7 ++ " 끝".data)) ""
      = String.mk (natDigits 7) :=
  claim8_gsn_roundtrip "문의".data " 끝".data 7 "" (by decide)
    (by intro c hc; injection hc with h; rw [← h]; decide)

/-- The labels of the pre-sort value-count table are the deduplicated
values. -/
theorem valueCountsPre_map_fst (values : List String) :
    ((values.dedup.map fun v => (v, (values.filter (fun x => x == v)).length)).map Prod.fst)
      = values.dedup := by
  rw [List.map_map]
  exact List.map_id _

/-- C4: the category distribution with topN = 4.  The value-count table
is sorted by descending count, has pairwise-distinct labels, counts the
occurrences of each distinct category, and covers every category.  With
at most 5 distinct categories create_donut_chart returns it unmodified
(no synthetic bucket is appended); with more than 5 it returns exactly 5
entries: the first 4 of the descending table followed by one synthetic
기타 bucket whose count is the sum of all remaining categories'
counts. -/
theorem claim4_donut_distribution (values : List String) :
    List.Sorted byCountDesc (valueCounts values) ∧
    ((valueCounts values).map Prod.fst).Nodup ∧
    (∀ q ∈ valueCounts values,
      q.2 = (values.filter (fun x => x == q.1)).length ∧ q.1 ∈ values) ∧
    (∀ v ∈ values, v ∈ (valueCounts values).map Prod.fst) ∧
    ((valueCounts values).length ≤ 5 → create_donut_chart values = valueCounts values) ∧
    (5 < (valueCounts values).length →
      (create_donut_chart values).length = 5 ∧
      (create_donut_chart values).take 4 = (valueCounts values).take 4 ∧
      (create_donut_chart values).getLast? =
        some ("기타", (((valueCounts values).drop 4).map Prod.snd).sum)) := by
  have hperm : (valueCounts values).Perm
      (values.dedup.map fun v => (v, (values.filter (fun x => x == v)).length)) :=
    List.perm_insertionSort _ _
  refine ⟨List.sorted_insertionSort _ _, ?_, ?_, ?_, ?_, ?_⟩
  · have hmapperm := hperm.map Prod.fst
    rw [valueCountsPre_map_fst] at hmapperm
    exact hmapperm.nodup_iff.mpr (List.nodup_dedup values)
  · intro q hq
    obtain ⟨v, hv, hveq⟩ := List.mem_map.mp (hperm.mem_iff.mp hq)
    rw [← hveq]
    exact ⟨rfl, List.mem_dedup.mp hv⟩
  · intro v hv
    have hvd : v ∈ values.dedup := List.mem_dedup.mpr hv
    have hpre : v ∈ (values.dedup.map
        fun v => (v, (values.filter (fun x => x == v)).length)).map Prod.fst := by
      rw [valueCountsPre_map_fst]
      exact hvd
    exact (hperm.map Prod.fst).mem_iff.mpr hpre
  · intro h5
    unfold create_donut_chart
    rw [if_neg (by omega)]
  · intro h5
    unfold create_donut_chart
    rw [if_pos h5]
    refine ⟨?_, ?_, List.getLast?_concat _⟩
    · simp only [List.length_append, List.length_take, List.length_cons, List.length_nil]
      omega
    · rw [List.take_append_eq_append_take, List.length_take, List.take_take]
      have h0 : 4 - min 4 (valueCounts values).length = 0 := by omega
      have h4 : min 4 4 = 4 := rfl
      rw [h0, h4]
      simp

/-- Witness for claim4 on six distinct categories: the bucketing branch
yields exactly 5 entries ending in the synthetic 기타 bucket. -/
theorem claim4_donut_distribution_witness :
    (create_donut_chart ["a", "b", "c", "d", "e", "f"]).length = 5 ∧
    (create_donut_chart ["a", "b", "c", "d", "e", "f"]).getLast? = some ("기타", 2) := by
  have h := (claim4_donut_distribution ["a", "b", "c", "d", "e", "f"]).2.2.2.2.2 (by decide)
  refine ⟨h.1, ?_⟩
  rw [h.2.2]
  decide
